import Mathlib

/-!
# Verification of the retrieval-and-scoring pipeline

Shallow embedding of the core of the financial-intelligence platform:
the chunker and retriever of `backend/ai/rag_engine.py`, the sentiment
labeller of `backend/models/sentiment.py`, the risk aggregator of
`backend/models/risk_scorer.py`, and the vector-index insert contract.
Text is modelled as `List Char`, Python floats as `ℚ`, Python exceptions
as `Except String`.
-/

/-! ## Python string primitives -/

/-- Python index normalisation for a slice bound: a negative index counts
from the end (`len + i`), and the result is clamped into `[0, len]`. -/
def pyIdx (n : Nat) (i : Int) : Nat :=
  if i < 0 then ((n : Int) + i).toNat else min i.toNat n

/-- Python slice `s[a:b]` on a character list, with Python's negative-index
and clamping semantics. -/
def pySlice (s : List Char) (a b : Int) : List Char :=
  (s.drop (pyIdx s.length a)).take (pyIdx s.length b - pyIdx s.length a)

/-- Index of the last occurrence of `c`, or `none` — embeds `str.rfind`
(which returns `-1` for no occurrence; the `-1` is reinstated in
`lastPeriodIdx`). -/
def rfindIdx (c : Char) : List Char → Option Nat
  | [] => none
  | x :: xs =>
    match rfindIdx c xs with
    | some i => some (i + 1)
    | none => if x = c then some 0 else none

/-- Python `str.strip()`: drop whitespace from both ends. -/
def pyStrip (s : List Char) : List Char :=
  ((s.dropWhile Char.isWhitespace).reverse.dropWhile Char.isWhitespace).reverse

/-! ## The chunker (`rag_engine.py`, `chunk_text`, lines 41-60) -/

/-- `chunk.rfind('.')` for the window `text[start : start+cs]`, as an `Int`
(`-1` when the window holds no period), exactly as the source uses it. -/
def lastPeriodIdx (text : List Char) (start cs : Int) : Int :=
  match rfindIdx '.' (pySlice text start (start + cs)) with
  | some i => (i : Int)
  | none => -1

/-- One iteration of the `while` loop of `chunk_text`
(`rag_engine.py:46-58`): take the window `text[start : start+cs]`; if the
window's right edge is strictly inside the text and the last period of the
window sits past 70% of `chunk_size` (source: `last_period > chunk_size *
0.7`, modelled with the exact comparison `10·last_period > 7·chunk_size`),
truncate the window just after that period.  Returns the stripped chunk
that the iteration appends and the next value of `start`
(`start = end - overlap`). -/
def chunkStep (cs ov : Int) (text : List Char) (start : Int) : List Char × Int :=
  if start + cs < (text.length : Int) ∧ lastPeriodIdx text start cs * 10 > cs * 7 then
    (pyStrip (pySlice text start (start + lastPeriodIdx text start cs + 1)),
      start + lastPeriodIdx text start cs + 1 - ov)
  else
    (pyStrip (pySlice text start (start + cs)), start + cs - ov)

/-- Fuelled interpretation of the `while start < len(text)` loop of
`chunk_text`.  The source loop has no termination guarantee (its progress
depends on the parameters), so the embedding runs on fuel and yields
`none` when the fuel is exhausted before the loop exits. -/
def chunkLoop (cs ov : Int) (text : List Char) : Nat → Int → Option (List (List Char))
  | 0, _ => none
  | fuel + 1, start =>
    if start < (text.length : Int) then
      Option.map (fun rest => (chunkStep cs ov text start).1 :: rest)
        (chunkLoop cs ov text fuel (chunkStep cs ov text start).2)
    else
      some []

/-- `chunk_text(text, chunk_size, overlap)` (`rag_engine.py:41-60`), run
with fuel `len(text) + 1` — enough fuel for any execution in which `start`
strictly increases on every iteration. -/
def chunk_text (text : List Char) (cs ov : Int) : Option (List (List Char)) :=
  chunkLoop cs ov text (text.length + 1) 0

/-! ## Chunker lemmas -/

lemma chunkLoop_succ (cs ov : Int) (text : List Char) (k : Nat) (s : Int) :
    chunkLoop cs ov text (k + 1) s =
      if s < (text.length : Int) then
        Option.map (fun rest => (chunkStep cs ov text s).1 :: rest)
          (chunkLoop cs ov text k (chunkStep cs ov text s).2)
      else some [] := rfl

lemma rfindIdx_eq_none {c : Char} {l : List Char} (h : c ∉ l) : rfindIdx c l = none := by
  induction l with
  | nil => rfl
  | cons x xs ih =>
    simp only [List.mem_cons, not_or] at h
    simp only [rfindIdx, ih h.2, if_neg (Ne.symm h.1)]

lemma pySlice_replicate (n : Nat) (a : Char) (i j : Int) :
    pySlice (List.replicate n a) i j =
      List.replicate (pyIdx n j - pyIdx n i) a := by
  have hle : pyIdx n j ≤ n := by
    unfold pyIdx; split <;> omega
  simp only [pySlice, List.length_replicate, List.drop_replicate, List.take_replicate]
  congr 1
  omega

lemma dropWhile_replicate_of_neg (p : Char → Bool) (n : Nat) (a : Char) (h : ¬p a) :
    List.dropWhile p (List.replicate n a) = List.replicate n a := by
  cases n with
  | zero => rfl
  | succ m => simp [List.replicate_succ, List.dropWhile_cons, h]

lemma pyStrip_replicate (n : Nat) (a : Char) (h : ¬a.isWhitespace) :
    pyStrip (List.replicate n a) = List.replicate n a := by
  simp [pyStrip, dropWhile_replicate_of_neg _ _ _ h, List.reverse_replicate,
    dropWhile_replicate_of_neg _ _ _ h]

/-- On a period-free, whitespace-free text the boundary heuristic never
fires, so one loop iteration takes the plain window and advances `start`
by `chunk_size - overlap`. -/
lemma chunkStep_replicate (cs ov start : Int) (n : Nat) (a : Char)
    (hcs : 0 ≤ cs) (hper : a ≠ '.') (hws : ¬a.isWhitespace) :
    chunkStep cs ov (List.replicate n a) start =
      (List.replicate (pyIdx n (start + cs) - pyIdx n start) a, start + cs - ov) := by
  have hlp : lastPeriodIdx (List.replicate n a) start cs = -1 := by
    unfold lastPeriodIdx
    rw [pySlice_replicate, rfindIdx_eq_none]
    intro hmem
    exact hper (List.eq_of_mem_replicate hmem).symm
  unfold chunkStep
  rw [if_neg, pySlice_replicate, pyStrip_replicate _ _ hws]
  rw [hlp]
  push_neg
  intro
  omega

/-- The 2500-character period-free text of spec §8's concrete chunking test. -/
def exText2500 : List Char := List.replicate 2500 'a'

lemma exText2500_len : exText2500.length = 2500 := by
  rw [exText2500, List.length_replicate]

lemma step2500 (s : Int) :
    chunkStep 1000 200 exText2500 s =
      (List.replicate (pyIdx 2500 (s + 1000) - pyIdx 2500 s) 'a', s + 800) := by
  have h := chunkStep_replicate 1000 200 s 2500 'a' (by norm_num) (by decide) (by decide)
  rw [exText2500, h]
  congr 1
  omega

/-- Full run of `chunk_text` on the 2500-character period-free text with
the default parameters: four chunks, of 1000, 1000, 900 and 100 characters. -/
lemma c8_run : chunk_text exText2500 1000 200 =
    some [List.replicate 1000 'a', List.replicate 1000 'a',
      List.replicate 900 'a', List.replicate 100 'a'] := by
  have e0 : pyIdx 2500 (0 + 1000) - pyIdx 2500 0 = 1000 := by decide
  have h0 : chunkStep 1000 200 exText2500 0 = (List.replicate 1000 'a', 800) := by
    rw [step2500, e0]
    norm_num
  have e1 : pyIdx 2500 (800 + 1000) - pyIdx 2500 800 = 1000 := by decide
  have h1 : chunkStep 1000 200 exText2500 800 = (List.replicate 1000 'a', 1600) := by
    rw [step2500, e1]
    norm_num
  have e2 : pyIdx 2500 (1600 + 1000) - pyIdx 2500 1600 = 900 := by decide
  have h2 : chunkStep 1000 200 exText2500 1600 = (List.replicate 900 'a', 2400) := by
    rw [step2500, e2]
    norm_num
  have e3 : pyIdx 2500 (2400 + 1000) - pyIdx 2500 2400 = 100 := by decide
  have h3 : chunkStep 1000 200 exText2500 2400 = (List.replicate 100 'a', 3200) := by
    rw [step2500, e3]
    norm_num
  have hlen : ((exText2500.length : Nat) : Int) = 2500 := by rw [exText2500_len]; norm_num
  have L4 : chunkLoop 1000 200 exText2500 2497 3200 = some [] := by
    rw [show (2497 : Nat) = 2496 + 1 from rfl, chunkLoop_succ, hlen, if_neg (by norm_num)]
  have L3 : chunkLoop 1000 200 exText2500 2498 2400 = some [List.replicate 100 'a'] := by
    rw [show (2498 : Nat) = 2497 + 1 from rfl, chunkLoop_succ, hlen, if_pos (by norm_num), h3]
    rw [L4]
    rfl
  have L2 : chunkLoop 1000 200 exText2500 2499 1600 =
      some [List.replicate 900 'a', List.replicate 100 'a'] := by
    rw [show (2499 : Nat) = 2498 + 1 from rfl, chunkLoop_succ, hlen, if_pos (by norm_num), h2]
    rw [L3]
    rfl
  have L1 : chunkLoop 1000 200 exText2500 2500 800 =
      some [List.replicate 1000 'a', List.replicate 900 'a', List.replicate 100 'a'] := by
    rw [show (2500 : Nat) = 2499 + 1 from rfl, chunkLoop_succ, hlen, if_pos (by norm_num), h1]
    rw [L2]
    rfl
  have L0 : chunkLoop 1000 200 exText2500 2501 0 =
      some [List.replicate 1000 'a', List.replicate 1000 'a',
        List.replicate 900 'a', List.replicate 100 'a'] := by
    rw [show (2501 : Nat) = 2500 + 1 from rfl, chunkLoop_succ, hlen, if_pos (by norm_num), h0]
    rw [L1]
    rfl
  rw [chunk_text, exText2500_len]
  exact L0

/-- Whenever `overlap` is at most 70% of `chunk_size`, every loop iteration
advances `start` by at least one position. -/
lemma chunkStep_progress (cs ov : Int) (text : List Char) (start : Int)
    (hcs : 0 < cs) (h7 : ov * 10 ≤ cs * 7) :
    start + 1 ≤ (chunkStep cs ov text start).2 := by
  unfold chunkStep
  split
  case isTrue h => omega
  case isFalse h => omega

lemma chunkLoop_isSome (cs ov : Int) (text : List Char)
    (hcs : 0 < cs) (h7 : ov * 10 ≤ cs * 7) :
    ∀ (k : Nat) (start : Int), (text.length : Int) ≤ start + k →
      (chunkLoop cs ov text (k + 1) start).isSome := by
  intro k
  induction k with
  | zero =>
    intro start h
    rw [chunkLoop_succ, if_neg (by omega)]
    rfl
  | succ m ih =>
    intro start h
    by_cases hs : start < (text.length : Int)
    · rw [chunkLoop_succ, if_pos hs]
      have hp := chunkStep_progress cs ov text start hcs h7
      have := ih (chunkStep cs ov text start).2 (by omega)
      cases hcl : chunkLoop cs ov text (m + 1) (chunkStep cs ov text start).2 with
      | none => rw [hcl] at this; exact absurd this (by simp)
      | some l => rfl
    · rw [chunkLoop_succ, if_neg hs]
      rfl

lemma pySlice_full (text : List Char) (cs : Int) (h : (text.length : Int) ≤ cs) :
    pySlice text 0 cs = text := by
  have h0 : pyIdx text.length 0 = 0 := by unfold pyIdx; simp
  have h1 : pyIdx text.length cs = text.length := by
    unfold pyIdx
    rw [if_neg (by omega)]
    omega
  rw [pySlice, h0, h1]
  simp

/-- A 20-character text whose first window has its last period at index 8:
with `chunk_size = 10, overlap = 9` the truncated window makes
`start = start + 8 + 1 - 9 = start`, so the loop revisits the same state. -/
def exTextStuck : List Char := "aaaaaaaa.aaaaaaaaaaa".toList

/-! ## Claim C2: termination of `chunk_text` -/

/-- C2 counterexample.  The claim asserts that for every configuration with
`0 ≤ overlap < chunk_size` the start position makes progress on every
iteration and `chunk_text` terminates.  At `chunk_size = 10`,
`overlap = 9` (valid per the claim) on a text whose first window ends at a
period at window index 8, the iteration leaves `start` at 0 — no progress —
and the fuelled loop exhausts any fuel: `chunk_text` yields no result. -/
theorem chunk_text_progress_counterexample :
    (0 : Int) < 10 ∧ (0 : Int) ≤ 9 ∧ (9 : Int) < 10 ∧
    (0 : Int) < (exTextStuck.length : Int) ∧
    (chunkStep 10 9 exTextStuck 0).2 = 0 ∧
    chunk_text exTextStuck 10 9 = none := by decide

/-- C2 (amended): `chunk_text(text, chunk_size, overlap)` terminates for
every text whenever `chunk_size > 0` and `10·overlap ≤ 7·chunk_size`
(overlap at most 70% of the chunk size): every iteration then advances
`start` by at least one, and the fuelled loop with fuel `len(text) + 1`
returns a result.  (For `0.7·chunk_size < overlap < chunk_size` the
truncated-window iteration can leave `start` unchanged, as the
counterexample shows.) -/
theorem chunk_text_terminates_of_small_overlap (text : List Char) (cs ov : Int)
    (hcs : 0 < cs) (h7 : ov * 10 ≤ cs * 7) :
    (chunk_text text cs ov).isSome := by
  rw [chunk_text]
  exact chunkLoop_isSome cs ov text hcs h7 text.length 0 (by omega)

theorem chunk_text_terminates_of_small_overlap_witness :
    (0 : Int) < 10 ∧ (7 : Int) * 10 ≤ 10 * 7 ∧
    (chunk_text "hello.world.more text".toList 10 7).isSome :=
  ⟨by decide, by decide,
    chunk_text_terminates_of_small_overlap "hello.world.more text".toList 10 7
      (by decide) (by decide)⟩

/-! ## Claim C3: no configuration validation -/

/-- C3: the code contains no validation of `chunk_size`/`overlap` and
raises no ConfigurationError.  On the invalid configuration
`chunk_size = 1, overlap = 1` (overlap ≥ chunk_size) with text `"ab"`,
every iteration recomputes `start = 0` and the loop never exits: for every
amount of fuel the loop is still running, so no chunk list — and no
error — is ever produced. -/
theorem chunk_text_invalid_config_loops :
    ∀ fuel : Nat, chunkLoop 1 1 "ab".toList fuel 0 = none := by
  intro fuel
  induction fuel with
  | zero => rfl
  | succ m ih =>
    rw [chunkLoop_succ, if_pos (by decide),
      show (chunkStep 1 1 "ab".toList 0).2 = 0 from by decide, ih]
    rfl

theorem chunk_text_invalid_config_loops_witness :
    chunkLoop 1 1 "ab".toList 5 0 = none :=
  chunk_text_invalid_config_loops 5

/-! ## Claim C4: texts shorter than the chunk size -/

/-- C4 counterexample.  The claim asserts any text shorter than
`chunk_size` yields exactly one chunk.  `"abcde"` (5 characters) with
`chunk_size = 10, overlap = 9` (valid: `overlap < chunk_size`) yields five
chunks: after the first window the loop restarts at
`start = 10 - 9 = 1 < 5`, then 2, 3, 4. -/
theorem chunk_text_short_counterexample :
    ("abcde".toList.length : Int) < 10 ∧ (0 : Int) ≤ 9 ∧ (9 : Int) < 10 ∧
    (chunk_text "abcde".toList 10 9).map List.length = some 5 ∧
    (chunk_text "abcde".toList 10 9).map List.length ≠ some 1 := by decide

/-- C4 (amended): a nonempty text `T` with `len(T) < chunk_size` yields
exactly one chunk equal to `T.strip()` provided additionally
`len(T) ≤ chunk_size - overlap` (so that the restart position
`chunk_size - overlap` falls at or beyond the end of the text); an empty
text yields zero chunks rather than one. -/
theorem chunk_text_short_single_chunk (text : List Char) (cs ov : Int)
    (hne : text ≠ []) (hlen : (text.length : Int) < cs)
    (hfit : (text.length : Int) ≤ cs - ov) :
    chunk_text text cs ov = some [pyStrip text] := by
  obtain ⟨n, hn⟩ : ∃ n, text.length = n + 1 := by
    cases text with
    | nil => exact absurd rfl hne
    | cons x xs => exact ⟨xs.length, rfl⟩
  have hstep : chunkStep cs ov text 0 = (pyStrip text, cs - ov) := by
    unfold chunkStep
    rw [if_neg (by push_neg; intro hc; omega)]
    rw [show (0 : Int) + cs = cs from by omega, pySlice_full text cs (by omega)]
  rw [chunk_text, hn]
  rw [show n + 1 + 1 = (n + 1) + 1 from rfl, chunkLoop_succ]
  rw [if_pos (by rw [hn]; push_cast; omega), hstep]
  rw [chunkLoop_succ, if_neg (by rw [hn] at hfit ⊢; push_cast at hfit ⊢; omega)]
  rfl

theorem chunk_text_short_single_chunk_witness :
    chunk_text "  hi ".toList 8 2 = some [pyStrip "  hi ".toList] :=
  chunk_text_short_single_chunk "  hi ".toList 8 2 (by decide) (by decide) (by decide)

/-! ## Claim C8: the 2500-character stride test -/

/-- C8 counterexample.  The claim asserts the run produces exactly 3
chunks; the code produces 4 (the third window's *unclamped* end is 2600,
so the loop restarts at `2600 - 200 = 2400 < 2500` and emits a fourth,
100-character chunk). -/
theorem chunk_text_stride_counterexample :
    (chunk_text exText2500 1000 200).map List.length ≠ some 3 := by
  rw [c8_run]
  intro h
  simp only [Option.map_some', Option.some.injEq, List.length_cons,
    List.length_nil] at h
  omega

/-- C8 (amended): on a 2500-character period-free text with
`chunk_size = 1000, overlap = 200`, the window start positions are
0, 800, 1600 and 2400 (stride `end - overlap = 800`; the fourth start
arises because `end` is not clamped to the text length), producing exactly
4 chunks of 1000, 1000, 900 and 100 characters, the last two windows
truncated by the end of the text. -/
theorem chunk_text_stride_positions :
    (chunkStep 1000 200 exText2500 0).2 = 800 ∧
    (chunkStep 1000 200 exText2500 800).2 = 1600 ∧
    (chunkStep 1000 200 exText2500 1600).2 = 2400 ∧
    (2400 : Int) < (exText2500.length : Int) ∧
    (chunkStep 1000 200 exText2500 2400).2 = 3200 ∧
    (chunk_text exText2500 1000 200).map (List.map List.length) =
      some [1000, 1000, 900, 100] := by
  refine ⟨?_, ?_, ?_, ?_, ?_, ?_⟩
  · rw [step2500]; decide
  · rw [step2500]; decide
  · rw [step2500]; decide
  · rw [exText2500_len]; norm_num
  · rw [step2500]; decide
  · rw [c8_run]
    simp only [Option.map_some', Option.some.injEq, List.map_cons, List.map_nil,
      List.length_replicate]

/-! ## The retriever (`rag_engine.py`, `query`, lines 106-191)

The embedding model, the ChromaDB collection and the ERNIE generation
backend are external collaborators; `query` is parameterised over them as
`Except String`-valued functions, so that a collaborator that raises is a
function returning `Except.error`. -/

/-- The per-chunk metadata fields that `query` reads
(`meta['chunk_id']`, `meta['document_id']`). -/
structure ChunkMeta where
  chunkId : Nat
  documentId : Nat
deriving DecidableEq

/-- The slice of a ChromaDB query result that `query` consumes:
`results['documents'][0]`, `results['metadatas'][0]`,
`results['distances'][0]`.  An outer-empty or inner-empty documents list
is modelled as `documents = []`. -/
structure SearchResult where
  documents : List String
  metadatas : List ChunkMeta
  distances : List ℚ
deriving DecidableEq

/-- One entry of `RetrievalResult.sources` (`rag_engine.py:168-176`). -/
structure RagSource where
  chunkId : Nat
  documentId : Nat
  relevance : ℚ
  preview : String
deriving DecidableEq

/-- The dictionary `query` returns.  `confidence` is `none` when the
source dict carries no `'confidence'` key (the zero-match and error
returns). -/
structure RetrievalResult where
  answer : String
  context : String
  sources : List RagSource
  confidence : Option ℚ
deriving DecidableEq

/-- `"[Source i+1] {ctx}"` labels, 1-indexed in rank order. -/
def labelDocs : Nat → List String → List String
  | _, [] => []
  | i, d :: ds => ("[Source " ++ toString (i + 1) ++ "] " ++ d) :: labelDocs (i + 1) ds

/-- The context block: labelled chunks joined by blank lines
(`rag_engine.py:142-145`). -/
def mkContext (docs : List String) : String :=
  String.intercalate "\n\n" (labelDocs 0 docs)

/-- The generation prompt (`rag_engine.py:151-163`). -/
def mkPrompt (question context : String) : String :=
  "Based on the following context from a financial document, answer the question.\n\nContext:\n"
    ++ context
    ++ "\n\nQuestion: " ++ question
    ++ "\n\nProvide a detailed answer with:\n- Direct answer to the question\n- Supporting evidence from the context\n- Relevant metrics or data points\n\nAnswer:"

/-- `ctx[:200] + '...' if len(ctx) > 200 else ctx`. -/
def mkPreview (ctx : String) : String :=
  if 200 < ctx.length then ctx.take 200 ++ "..." else ctx

/-- The `sources` list comprehension (`rag_engine.py:168-176`):
`zip(metadatas, distances, contexts)` truncates to the shortest list;
`relevance = 1 - dist` with no clamping. -/
def mkSources : List ChunkMeta → List ℚ → List String → List RagSource
  | m :: ms, d :: ds, c :: cs =>
    { chunkId := m.chunkId, documentId := m.documentId,
      relevance := 1 - d, preview := mkPreview c } :: mkSources ms ds cs
  | _, _, _ => []

/-- Python `min(list)`: `none` on the empty list (where Python raises
`ValueError`). -/
def pyMin : List ℚ → Option ℚ
  | [] => none
  | x :: xs =>
    match pyMin xs with
    | none => some x
    | some m => some (min x m)

/-- The body of the `try:` block of `query` (`rag_engine.py:116-183`):
embed the question, search, return the no-match result on zero matches,
otherwise call the generation backend and package answer, context,
sources and `confidence = 1 - min(distances)` (no clamping).  An
`Except.error` is a raised Python exception. -/
def queryE (embed : Except String (List ℚ))
    (search : List ℚ → Except String SearchResult)
    (generate : String → Except String String)
    (question : String) : Except String RetrievalResult :=
  match embed with
  | .error e => .error e
  | .ok qemb =>
    match search qemb with
    | .error e => .error e
    | .ok res =>
      if res.documents = [] then
        .ok { answer := "No relevant information found.", context := "",
              sources := [], confidence := none }
      else
        match generate (mkPrompt question (mkContext res.documents)) with
        | .error e => .error e
        | .ok answer =>
          match pyMin res.distances with
          | none => .error "min() arg is an empty sequence"
          | some m =>
            .ok { answer := answer, context := mkContext res.documents,
                  sources := mkSources res.metadatas res.distances res.documents,
                  confidence := some (1 - m) }

/-- `query` itself: the `except Exception` handler (`rag_engine.py:185-191`)
converts any raised exception into a degraded result whose answer
describes the error, with empty context and sources. -/
def query (embed : Except String (List ℚ))
    (search : List ℚ → Except String SearchResult)
    (generate : String → Except String String)
    (question : String) : RetrievalResult :=
  match queryE embed search generate question with
  | .ok r => r
  | .error e =>
    { answer := "Error processing query: " ++ e, context := "",
      sources := [], confidence := none }

/-! ## Claim C1: query never propagates an exception -/

/-- C1: `query` always returns a `RetrievalResult` (its type is total —
the `except` handler at `rag_engine.py:185` catches everything), and when
the embedding, the index search, or the generation collaborator raises
with message `e`, the returned result is exactly the degraded result: an
answer describing the error, empty context, empty sources. -/
theorem query_degrades_on_collaborator_failure
    (embed : Except String (List ℚ))
    (search : List ℚ → Except String SearchResult)
    (generate : String → Except String String)
    (question : String) (e : String) :
    (embed = .error e →
      query embed search generate question =
        { answer := "Error processing query: " ++ e, context := "",
          sources := [], confidence := none }) ∧
    (∀ qemb, embed = .ok qemb → search qemb = .error e →
      query embed search generate question =
        { answer := "Error processing query: " ++ e, context := "",
          sources := [], confidence := none }) ∧
    (∀ qemb res, embed = .ok qemb → search qemb = .ok res →
      res.documents ≠ [] →
      generate (mkPrompt question (mkContext res.documents)) = .error e →
      query embed search generate question =
        { answer := "Error processing query: " ++ e, context := "",
          sources := [], confidence := none }) := by
  refine ⟨?_, ?_, ?_⟩
  · intro h
    subst h
    rfl
  · intro qemb h hs
    subst h
    simp only [query, queryE, hs]
  · intro qemb res h hs hne hg
    subst h
    simp only [query, queryE, hs, if_neg hne, hg]

theorem query_degrades_on_collaborator_failure_witness :
    query (.error "model offline") (fun _ => .ok ⟨[], [], []⟩)
        (fun _ => .ok "answer") "what is revenue?" =
      { answer := "Error processing query: " ++ "model offline", context := "",
        sources := [], confidence := none } :=
  (query_degrades_on_collaborator_failure (.error "model offline")
    (fun _ => .ok ⟨[], [], []⟩) (fun _ => .ok "answer")
    "what is revenue?" "model offline").1 rfl

/-! ## Claim C6: zero matches -/

/-- C6: when the embedding succeeds and the search succeeds with zero
matches (empty index or filter matching nothing), `query` returns —
normally, through `.ok`, not through the error handler — exactly the
result with answer `"No relevant information found."`, empty context,
empty sources, and no confidence value. -/
theorem query_no_matches
    (embed : Except String (List ℚ))
    (search : List ℚ → Except String SearchResult)
    (generate : String → Except String String)
    (question : String) (qemb : List ℚ) (res : SearchResult)
    (hemb : embed = .ok qemb) (hs : search qemb = .ok res)
    (hdocs : res.documents = []) :
    queryE embed search generate question =
      .ok { answer := "No relevant information found.", context := "",
            sources := [], confidence := none } ∧
    query embed search generate question =
      { answer := "No relevant information found.", context := "",
        sources := [], confidence := none } := by
  subst hemb
  constructor
  · simp only [queryE, hs, if_pos hdocs]
  · simp only [query, queryE, hs, if_pos hdocs]

theorem query_no_matches_witness :
    queryE (.ok [1, 0]) (fun _ => .ok ⟨[], [], []⟩)
        (fun _ => .ok "answer") "anything" =
      .ok { answer := "No relevant information found.", context := "",
            sources := [], confidence := none } ∧
    query (.ok [1, 0]) (fun _ => .ok ⟨[], [], []⟩)
        (fun _ => .ok "answer") "anything" =
      { answer := "No relevant information found.", context := "",
        sources := [], confidence := none } :=
  query_no_matches (.ok [1, 0]) (fun _ => .ok ⟨[], [], []⟩)
    (fun _ => .ok "answer") "anything" [1, 0] ⟨[], [], []⟩ rfl rfl rfl

/-! ## Claim C5: confidence and relevance -/

lemma pyMin_mem {l : List ℚ} {m : ℚ} (h : pyMin l = some m) : m ∈ l := by
  induction l generalizing m with
  | nil => exact absurd h (by simp [pyMin])
  | cons x xs ih =>
    rw [pyMin] at h
    cases hx : pyMin xs with
    | none => rw [hx] at h; simp at h; simp [h]
    | some m0 =>
      rw [hx] at h
      simp only [Option.some.injEq] at h
      rcases min_cases x m0 with ⟨he, _⟩ | ⟨he, _⟩
      · simp [← h, he]
      · right
        rw [← h, he]
        exact ih hx

lemma pyMin_le {l : List ℚ} {m : ℚ} (h : pyMin l = some m) :
    ∀ d ∈ l, m ≤ d := by
  induction l generalizing m with
  | nil => simp
  | cons x xs ih =>
    rw [pyMin] at h
    cases hx : pyMin xs with
    | none =>
      rw [hx] at h
      simp only [Option.some.injEq] at h
      cases xs with
      | nil => simp [← h]
      | cons y ys => exact absurd hx (by rw [pyMin]; cases pyMin ys <;> simp)
    | some m0 =>
      rw [hx] at h
      simp only [Option.some.injEq] at h
      intro d hd
      rcases List.mem_cons.mp hd with rfl | hd
      · rw [← h]; exact min_le_left _ _
      · rw [← h]
        exact le_trans (min_le_right _ _) (ih hx d hd)

lemma mkSources_relevance {ms : List ChunkMeta} {ds : List ℚ} {cs : List String} :
    ∀ s ∈ mkSources ms ds cs, ∃ d ∈ ds, s.relevance = 1 - d := by
  induction ms generalizing ds cs with
  | nil => intro s hs; exact absurd hs (by cases ds <;> cases cs <;> simp [mkSources])
  | cons m ms ih =>
    intro s hs
    cases ds with
    | nil => exact absurd hs (by simp [mkSources])
    | cons d ds =>
      cases cs with
      | nil => exact absurd hs (by simp [mkSources])
      | cons c cs =>
        rw [mkSources] at hs
        rcases List.mem_cons.mp hs with rfl | hs
        · exact ⟨d, by simp⟩
        · obtain ⟨d0, hd0, he⟩ := ih s hs
          exact ⟨d0, List.mem_cons_of_mem _ hd0, he⟩

lemma mkSources_map_relevance : ∀ (ms : List ChunkMeta) (ds : List ℚ) (cs : List String),
    ms.length = ds.length → ds.length = cs.length →
    (mkSources ms ds cs).map RagSource.relevance = ds.map (fun d => 1 - d)
  | [], [], _, _, _ => rfl
  | m :: ms, d :: ds, c :: cs, h1, h2 => by
    rw [mkSources, List.map_cons, List.map_cons,
      mkSources_map_relevance ms ds cs (by simpa using h1) (by simpa using h2)]

/-- C5 counterexample.  The claim asserts confidence and relevance are
clamped to `[0,1]`, in particular for distances in `[0,2]`.  The code
clamps neither (`rag_engine.py:172` and `:182`): with a single match at
cosine distance `3/2 ∈ [0,2]`, `query` returns confidence `-1/2` and
source relevance `-1/2`, both outside `[0,1]`. -/
theorem query_no_clamping_counterexample :
    (0 : ℚ) ≤ 3/2 ∧ (3 : ℚ)/2 ≤ 2 ∧
    (query (.ok [1]) (fun _ => .ok ⟨["ctx"], [⟨0, 1⟩], [3/2]⟩)
        (fun _ => .ok "ans") "q").confidence = some (-(1/2)) ∧
    ((query (.ok [1]) (fun _ => .ok ⟨["ctx"], [⟨0, 1⟩], [3/2]⟩)
        (fun _ => .ok "ans") "q").sources.map RagSource.relevance) = [1 - 3/2] ∧
    ¬ ((0 : ℚ) ≤ 1 - 3/2) := by
  have hq : query (.ok [1]) (fun _ => .ok ⟨["ctx"], [⟨0, 1⟩], [3/2]⟩)
      (fun _ => .ok "ans") "q" =
      { answer := "ans", context := mkContext ["ctx"],
        sources := mkSources [⟨0, 1⟩] [3/2] ["ctx"],
        confidence := some (1 - 3/2) } := rfl
  refine ⟨by norm_num, by norm_num, ?_, ?_, by norm_num⟩
  · rw [hq]
    norm_num
  · rw [hq]
    rfl

/-- C5 (amended): on the success path with at least one match,
`confidence = 1 - min(distances)` and each source's
`relevance = 1 - distance` with **no clamping**; both lie in `[0,1]`
exactly when the distances lie in `[0,1]` (for distances in `(1,2]` the
values go negative, as the counterexample shows). -/
theorem query_confidence_relevance
    (embed : Except String (List ℚ))
    (search : List ℚ → Except String SearchResult)
    (generate : String → Except String String)
    (question : String) (qemb : List ℚ) (res : SearchResult)
    (ans : String) (m : ℚ)
    (hemb : embed = .ok qemb) (hs : search qemb = .ok res)
    (hne : res.documents ≠ [])
    (hg : generate (mkPrompt question (mkContext res.documents)) = .ok ans)
    (hm : pyMin res.distances = some m)
    (hlm : res.metadatas.length = res.distances.length)
    (hlc : res.distances.length = res.documents.length) :
    (query embed search generate question).confidence = some (1 - m) ∧
    (query embed search generate question).sources.map RagSource.relevance
      = res.distances.map (fun d => 1 - d) ∧
    ((∀ d ∈ res.distances, 0 ≤ d ∧ d ≤ 1) →
      (0 ≤ 1 - m ∧ 1 - m ≤ 1) ∧
      ∀ s ∈ (query embed search generate question).sources,
        0 ≤ s.relevance ∧ s.relevance ≤ 1) := by
  subst hemb
  have hq : query (.ok qemb) search generate question =
      { answer := ans, context := mkContext res.documents,
        sources := mkSources res.metadatas res.distances res.documents,
        confidence := some (1 - m) } := by
    simp only [query, queryE, hs, if_neg hne, hg, hm]
  refine ⟨by rw [hq], ?_, ?_⟩
  · rw [hq]
    exact mkSources_map_relevance _ _ _ hlm hlc
  · intro hb
    have hmm := pyMin_mem hm
    obtain ⟨h0, h1⟩ := hb m hmm
    refine ⟨⟨by linarith, by linarith⟩, ?_⟩
    intro s hsrc
    rw [hq] at hsrc
    obtain ⟨d, hd, he⟩ := mkSources_relevance s hsrc
    obtain ⟨hd0, hd1⟩ := hb d hd
    constructor
    · rw [he]; linarith
    · rw [he]; linarith

theorem query_confidence_relevance_witness :
    (query (.ok [1]) (fun _ => .ok ⟨["alpha", "beta"], [⟨0, 7⟩, ⟨1, 7⟩], [1/2, 1/4]⟩)
        (fun _ => .ok "ans") "q").confidence = some (1 - 1/4) ∧
    (query (.ok [1]) (fun _ => .ok ⟨["alpha", "beta"], [⟨0, 7⟩, ⟨1, 7⟩], [1/2, 1/4]⟩)
        (fun _ => .ok "ans") "q").sources.map RagSource.relevance
      = [(1 : ℚ)/2, (1 : ℚ)/4].map (fun d => 1 - d) ∧
    ((∀ d ∈ [(1 : ℚ)/2, (1 : ℚ)/4], 0 ≤ d ∧ d ≤ 1) →
      (0 ≤ 1 - (1 : ℚ)/4 ∧ 1 - (1 : ℚ)/4 ≤ 1) ∧
      ∀ s ∈ (query (.ok [1]) (fun _ => .ok ⟨["alpha", "beta"], [⟨0, 7⟩, ⟨1, 7⟩], [1/2, 1/4]⟩)
          (fun _ => .ok "ans") "q").sources,
        0 ≤ s.relevance ∧ s.relevance ≤ 1) :=
  query_confidence_relevance (.ok [1])
    (fun _ => .ok ⟨["alpha", "beta"], [⟨0, 7⟩, ⟨1, 7⟩], [1/2, 1/4]⟩)
    (fun _ => .ok "ans") "q" [1] ⟨["alpha", "beta"], [⟨0, 7⟩, ⟨1, 7⟩], [1/2, 1/4]⟩
    "ans" (1/4) rfl rfl (by simp) rfl (by rw [pyMin, pyMin, pyMin]; norm_num) rfl rfl

/-! ## The sentiment labeller (`models/sentiment.py`, lines 7-22)

The VADER analyzer is an external collaborator: `analyze` is
parameterised over the polarity scores it returns for the input text. -/

/-- `vader.polarity_scores(text)`: compound in `[-1,1]` plus the
positive/negative/neutral proportions. -/
structure VaderScores where
  compound : ℚ
  pos : ℚ
  neg : ℚ
  neu : ℚ

/-- The result dictionary of `SentimentAnalyzer.analyze`. -/
structure SentimentResult where
  compound : ℚ
  positive : ℚ
  negative : ℚ
  neutral : ℚ
  label : String

/-- `_get_label` (`sentiment.py:17-22`): the fixed three-way threshold at
`±0.05` (`1/20`). -/
def get_label (c : ℚ) : String :=
  if c ≥ 1/20 then "positive"
  else if c ≤ -(1/20) then "negative"
  else "neutral"

/-- `analyze` (`sentiment.py:7-15`): repackage the VADER scores and attach
the label computed from the compound score. -/
def analyze (s : VaderScores) : SentimentResult :=
  { compound := s.compound, positive := s.pos, negative := s.neg,
    neutral := s.neu, label := get_label s.compound }

/-! ## Claim C9: the three-way label threshold -/

/-- C9: for every input (i.e. every VADER score vector a text can
produce), the label of `analyze` is `'positive'` iff `compound ≥ 0.05`,
`'negative'` iff `compound ≤ -0.05`, and `'neutral'` otherwise. -/
theorem analyze_label_thresholds (s : VaderScores) :
    ((analyze s).label = "positive" ↔ 1/20 ≤ s.compound) ∧
    ((analyze s).label = "negative" ↔ s.compound ≤ -(1/20)) ∧
    ((analyze s).label = "neutral" ↔
      ¬(1/20 ≤ s.compound) ∧ ¬(s.compound ≤ -(1/20))) := by
  show (get_label s.compound = "positive" ↔ _) ∧
    (get_label s.compound = "negative" ↔ _) ∧
    (get_label s.compound = "neutral" ↔ _)
  unfold get_label
  split_ifs with h1 h2
  · exact ⟨⟨fun _ => h1, fun _ => rfl⟩,
      ⟨fun h => absurd h (by decide), fun hc => ((by linarith : False)).elim⟩,
      ⟨fun h => absurd h (by decide), fun hc => absurd h1 hc.1⟩⟩
  · exact ⟨⟨fun h => absurd h (by decide), fun hc => absurd hc h1⟩,
      ⟨fun _ => h2, fun _ => rfl⟩,
      ⟨fun h => absurd h (by decide), fun hc => absurd h2 hc.2⟩⟩
  · exact ⟨⟨fun h => absurd h (by decide), fun hc => absurd hc h1⟩,
      ⟨fun h => absurd h (by decide), fun hc => absurd hc h2⟩,
      ⟨fun _ => ⟨h1, h2⟩, fun _ => rfl⟩⟩

theorem analyze_label_thresholds_witness :
    ((analyze ⟨1/10, 1/5, 0, 4/5⟩).label = "positive" ↔ (1 : ℚ)/20 ≤ 1/10) ∧
    ((analyze ⟨1/10, 1/5, 0, 4/5⟩).label = "negative" ↔ (1 : ℚ)/10 ≤ -(1/20)) ∧
    ((analyze ⟨1/10, 1/5, 0, 4/5⟩).label = "neutral" ↔
      ¬((1 : ℚ)/20 ≤ 1/10) ∧ ¬((1 : ℚ)/10 ≤ -(1/20))) :=
  analyze_label_thresholds ⟨1/10, 1/5, 0, 4/5⟩

/-! ## The risk aggregator (`models/risk_scorer.py`, lines 12-72) -/

/-- One article as `calculate_risk` reads it.  `sentiment` is `none` when
the dict has no `'sentiment'` key; `daysAgo` is the integer
`(now - pub_date).days` when `'publishedAt'` is present and
`datetime.fromisoformat` parses it, and `none` when the key is missing or
unparsable (the `except` branch of `risk_scorer.py:29-35`); `sourceName`
is `none` when `'source'` or its `'name'` is missing. -/
structure Article where
  sentiment : Option ℚ
  daysAgo : Option ℤ
  sourceName : Option String
deriving DecidableEq

/-- Modelled from the spec: `Config.WEIGHTS` is referenced by
`risk_scorer.py:9` but defined nowhere under `src/`; spec §4.5 gives the
four component weights (defaults 0.4/0.3/0.2/0.1). -/
structure RiskWeights where
  sentiment : ℚ
  frequency : ℚ
  recency : ℚ
  credibility : ℚ

/-- Modelled from the spec: `Config.SOURCE_CREDIBILITY` is referenced by
`risk_scorer.py:10` but defined nowhere under `src/`; spec §4.5 describes
it as a per-source weight table with a configured `'default'` entry
(carried here as `dflt`), unknown sources falling back to that default. -/
structure CredTable where
  entries : List (String × ℚ)
  dflt : ℚ

/-- Python `str.lower()` as a structural character map (the library
`String.toLower` is defined by well-founded recursion, which the kernel
cannot evaluate). -/
def pyLower (s : String) : String :=
  ⟨s.data.map Char.toLower⟩

/-- `self.source_scores.get(source, self.source_scores['default'])`:
look a lowercased source name up in the table, falling back to the
`'default'` entry. -/
def credLookup (t : CredTable) (s : String) : ℚ :=
  if s = "default" then t.dflt
  else match List.lookup s t.entries with
    | some v => v
    | none => t.dflt

/-- `a.get('sentiment', 0)` (`risk_scorer.py:17`). -/
def articleSentiment (a : Article) : ℚ :=
  a.sentiment.getD 0

/-- The per-article recency contribution (`risk_scorer.py:28-35`):
`max(0, 100 - days_ago * 10)` on a parsed timestamp, 50 when
`'publishedAt'` is missing or unparsable. -/
def articleRecency (a : Article) : ℚ :=
  match a.daysAgo with
  | some d => max 0 (100 - (d : ℚ) * 10)
  | none => 50

/-- The per-article credibility contribution (`risk_scorer.py:40-43`):
`article.get('source', {}).get('name', 'default').lower()` then the table
lookup, times 100. -/
def articleCred (t : CredTable) (a : Article) : ℚ :=
  credLookup t (pyLower (a.sourceName.getD "default")) * 100

/-- `np.mean` on a rational list. -/
def listMean (l : List ℚ) : ℚ :=
  l.sum / l.length

/-- `_get_risk_level` (`risk_scorer.py:67-72`). -/
def get_risk_level (r : ℚ) : String :=
  if r ≥ 70 then "HIGH"
  else if r ≥ 40 then "MEDIUM"
  else "LOW"

/-- The components sub-dictionary of the assessment. -/
structure RiskComponents where
  sentiment_score : ℚ
  frequency_score : ℚ
  recency_score : ℚ
  credibility_score : ℚ

/-- The dictionary `calculate_risk` returns.  The empty-input return
carries only `overall_risk` and `risk_level`, so the other fields are
`Option`s.  The source's display rounding (`round(x, 2)` / `round(x, 3)`)
is not modelled; no claim depends on it. -/
structure RiskAssessment where
  overall_risk : ℚ
  risk_level : String
  articles_analyzed : Option Nat
  avg_sentiment : Option ℚ
  components : Option RiskComponents

/-- `calculate_risk` (`risk_scorer.py:12-65`): empty input short-circuits
to `{overall_risk: 0.0, risk_level: 'UNKNOWN'}`; otherwise the four
component scores and their weighted sum. -/
def calculate_risk (w : RiskWeights) (t : CredTable) (timeWindowDays : ℚ)
    (articles : List Article) : RiskAssessment :=
  if articles = [] then
    { overall_risk := 0, risk_level := "UNKNOWN", articles_analyzed := none,
      avg_sentiment := none, components := none }
  else
    let avgSentiment := listMean (articles.map articleSentiment)
    let sentimentScore := max 0 (-avgSentiment * 100)
    let frequencyScore := min 100 ((articles.length : ℚ) / timeWindowDays * 20)
    let recencyScore := listMean (articles.map articleRecency)
    let credibilityScore := listMean (articles.map (articleCred t))
    let finalRisk := sentimentScore * w.sentiment + frequencyScore * w.frequency
      + recencyScore * w.recency + credibilityScore * w.credibility
    { overall_risk := finalRisk, risk_level := get_risk_level finalRisk,
      articles_analyzed := some articles.length,
      avg_sentiment := some avgSentiment,
      components := some ⟨sentimentScore, frequencyScore, recencyScore,
        credibilityScore⟩ }

/-! ## Claim C10: robustness to structurally incomplete articles -/

/-- C10: `calculate_risk` is total (the embedding has no error channel
because the source's per-article reads all have defaulting paths), and on
every non-empty article list it returns a full assessment (components
present); an article with no `'sentiment'` key contributes sentiment 0,
one with a missing or unparsable `'publishedAt'` contributes recency 50,
and one with a missing source name — or a source name absent from the
credibility table — contributes the configured `'default'` weight times
100. -/
theorem calculate_risk_defaults (w : RiskWeights) (t : CredTable)
    (timeWindowDays : ℚ) (articles : List Article) (a : Article) (s : String)
    (hne : articles ≠ []) :
    (calculate_risk w t timeWindowDays articles).components.isSome ∧
    (a.sentiment = none → articleSentiment a = 0) ∧
    (a.daysAgo = none → articleRecency a = 50) ∧
    (a.sourceName = none → articleCred t a = t.dflt * 100) ∧
    (a.sourceName = some s → List.lookup (pyLower s) t.entries = none →
      articleCred t a = t.dflt * 100) := by
  refine ⟨?_, ?_, ?_, ?_, ?_⟩
  · rw [calculate_risk, if_neg hne]
    rfl
  · intro h
    rw [articleSentiment, h]
    rfl
  · intro h
    rw [articleRecency, h]
  · intro h
    rw [articleCred, h]
    show credLookup t (pyLower "default") * 100 = t.dflt * 100
    rw [show pyLower "default" = "default" from rfl]
    unfold credLookup
    rw [if_pos rfl]
  · intro h hl
    rw [articleCred, h]
    show credLookup t (pyLower s) * 100 = t.dflt * 100
    unfold credLookup
    split
    · rfl
    · rw [hl]

theorem calculate_risk_defaults_witness :
    (calculate_risk ⟨2/5, 3/10, 1/5, 1/10⟩ ⟨[("reuters", 1)], 1/2⟩ 7
      [⟨none, none, some "Obscure Blog"⟩]).components.isSome ∧
    ((⟨none, none, some "Obscure Blog"⟩ : Article).sentiment = none →
      articleSentiment ⟨none, none, some "Obscure Blog"⟩ = 0) ∧
    ((⟨none, none, some "Obscure Blog"⟩ : Article).daysAgo = none →
      articleRecency ⟨none, none, some "Obscure Blog"⟩ = 50) ∧
    ((⟨none, none, some "Obscure Blog"⟩ : Article).sourceName = none →
      articleCred ⟨[("reuters", 1)], 1/2⟩ ⟨none, none, some "Obscure Blog"⟩ = 1/2 * 100) ∧
    ((⟨none, none, some "Obscure Blog"⟩ : Article).sourceName = some "Obscure Blog" →
      List.lookup (pyLower "Obscure Blog") [("reuters", (1 : ℚ))] = none →
      articleCred ⟨[("reuters", 1)], 1/2⟩ ⟨none, none, some "Obscure Blog"⟩ = 1/2 * 100) :=
  calculate_risk_defaults ⟨2/5, 3/10, 1/5, 1/10⟩ ⟨[("reuters", 1)], 1/2⟩ 7
    [⟨none, none, some "Obscure Blog"⟩] ⟨none, none, some "Obscure Blog"⟩
    "Obscure Blog" (by simp)

/-! ## The vector index insert contract (spec §4.2, §8)

`index_document` (`rag_engine.py:62-104`) prepares ids
`"doc_{document_id}_chunk_{i}"` and calls `self.collection.add(...)`;
`get_stats` (`rag_engine.py:208-217`) reports `self.collection.count()`.
The collection itself is ChromaDB, an external collaborator not under
`src/`. -/

/-- One stored vector: embedding plus chunk text (metadata omitted; the
claim concerns ids, embeddings and counts). -/
structure VecEntry where
  embedding : List ℚ
  document : String
deriving DecidableEq

/-- The ids present in a store, in storage order. -/
def storeKeys (store : List (String × VecEntry)) : List String :=
  store.map Prod.fst

/-- Lookup by id (first match). -/
def storeLookup : List (String × VecEntry) → String → Option VecEntry
  | [], _ => none
  | p :: ps, id => if p.1 = id then some p.2 else storeLookup ps id

/-- Modelled from the spec: spec §4.2 specifies the Vector Index `insert`
as an upsert by id ("overwrites rather than duplicates"); the ChromaDB
collection that implements it is not part of `src/`.  Upserting one
`(id, entry)` replaces the entry at an existing id in place and appends
otherwise. -/
def upsertOne : List (String × VecEntry) → String → VecEntry → List (String × VecEntry)
  | [], id, e => [(id, e)]
  | p :: ps, id, e => if p.1 = id then (id, e) :: ps else p :: upsertOne ps id e

/-- Modelled from the spec: batch insert = left fold of single upserts
(the id/embedding/text triples of `collection.add`). -/
def insertBatch (store : List (String × VecEntry))
    (batch : List (String × VecEntry)) : List (String × VecEntry) :=
  batch.foldl (fun st p => upsertOne st p.1 p.2) store

/-- `collection.count()` as `get_stats` reports it: the number of stored
vectors. -/
def storeCount (store : List (String × VecEntry)) : Nat :=
  store.length

lemma storeKeys_upsertOne (id : String) (e : VecEntry) :
    ∀ store : List (String × VecEntry), id ∈ storeKeys store →
      storeKeys (upsertOne store id e) = storeKeys store := by
  intro store
  induction store with
  | nil => intro h; exact absurd h (by simp [storeKeys])
  | cons p ps ih =>
    intro h
    rw [upsertOne]
    by_cases hp : p.1 = id
    · rw [if_pos hp]
      simp [storeKeys, hp]
    · rw [if_neg hp]
      have hmem : id ∈ storeKeys ps := by
        rcases List.mem_cons.mp h with he | hm
        · exact absurd he.symm hp
        · exact hm
      simp only [storeKeys, List.map_cons]
      rw [show List.map Prod.fst (upsertOne ps id e) = storeKeys (upsertOne ps id e) from rfl,
        ih hmem]
      rfl

lemma storeLookup_upsertOne_self (store : List (String × VecEntry))
    (id : String) (e : VecEntry) :
    storeLookup (upsertOne store id e) id = some e := by
  induction store with
  | nil => simp [upsertOne, storeLookup]
  | cons p ps ih =>
    rw [upsertOne]
    by_cases hp : p.1 = id
    · rw [if_pos hp, storeLookup, if_pos rfl]
    · rw [if_neg hp, storeLookup, if_neg hp]
      exact ih

lemma storeLookup_upsertOne_other (store : List (String × VecEntry))
    (idW id : String) (e : VecEntry) (hne : idW ≠ id) :
    storeLookup (upsertOne store idW e) id = storeLookup store id := by
  induction store with
  | nil => simp [upsertOne, storeLookup, if_neg hne]
  | cons p ps ih =>
    rw [upsertOne]
    by_cases hp : p.1 = idW
    · rw [if_pos hp, storeLookup, if_neg hne, storeLookup, if_neg]
      rw [hp]
      exact hne
    · rw [if_neg hp, storeLookup, storeLookup]
      by_cases hq : p.1 = id
      · rw [if_pos hq, if_pos hq]
      · rw [if_neg hq, if_neg hq]
        exact ih

lemma storeLookup_insertBatch_not_mem (batch : List (String × VecEntry)) :
    ∀ (store : List (String × VecEntry)) (id : String),
      id ∉ batch.map Prod.fst →
      storeLookup (insertBatch store batch) id = storeLookup store id := by
  induction batch with
  | nil => intro store id _; rfl
  | cons q qs ih =>
    intro store id hnm
    simp only [List.map_cons, List.mem_cons, not_or] at hnm
    rw [insertBatch, List.foldl_cons]
    rw [show List.foldl (fun st p => upsertOne st p.1 p.2) (upsertOne store q.1 q.2) qs
        = insertBatch (upsertOne store q.1 q.2) qs from rfl]
    rw [ih (upsertOne store q.1 q.2) id (by simpa using hnm.2)]
    exact storeLookup_upsertOne_other store q.1 id q.2 (fun h => hnm.1 h.symm)

/-! ## Claim C7: upsert semantics of re-insertion -/

/-- C7 (spec-modelled): re-inserting a batch whose ids all already exist
in the index acts as an upsert by id — `count()` afterwards equals
`count()` before, and (when the batch ids are distinct, as the
`doc_{id}_chunk_{i}` scheme guarantees) each re-inserted id now maps to
its new entry, the old embedding overwritten, nothing duplicated. -/
theorem insertBatch_upsert_existing
    (store batch : List (String × VecEntry))
    (hsub : ∀ p ∈ batch, p.1 ∈ storeKeys store) :
    storeCount (insertBatch store batch) = storeCount store ∧
    ((batch.map Prod.fst).Nodup →
      ∀ p ∈ batch, storeLookup (insertBatch store batch) p.1 = some p.2) := by
  induction batch generalizing store with
  | nil => exact ⟨rfl, by simp⟩
  | cons q qs ih =>
    have hq : q.1 ∈ storeKeys store := hsub q (by simp)
    have hkeys := storeKeys_upsertOne q.1 q.2 store hq
    have hlen : storeCount (upsertOne store q.1 q.2) = storeCount store := by
      have := congrArg List.length hkeys
      simpa [storeKeys, storeCount] using this
    have hsub' : ∀ p ∈ qs, p.1 ∈ storeKeys (upsertOne store q.1 q.2) := by
      intro p hp
      rw [hkeys]
      exact hsub p (List.mem_cons_of_mem _ hp)
    have hfold : insertBatch store (q :: qs) = insertBatch (upsertOne store q.1 q.2) qs := rfl
    obtain ⟨ihc, ihl⟩ := ih (upsertOne store q.1 q.2) hsub'
    constructor
    · rw [hfold, ihc, hlen]
    · intro hnd p hp
      simp only [List.map_cons, List.nodup_cons] at hnd
      rcases List.mem_cons.mp hp with rfl | hp
      · rw [hfold, storeLookup_insertBatch_not_mem qs _ p.1 hnd.1]
        exact storeLookup_upsertOne_self store p.1 p.2
      · rw [hfold]
        exact ihl hnd.2 p hp

theorem insertBatch_upsert_existing_witness :
    storeCount (insertBatch
      [("doc_1_chunk_0", ⟨[1, 2], "old text"⟩), ("doc_1_chunk_1", ⟨[3, 4], "tail"⟩)]
      [("doc_1_chunk_0", ⟨[5, 6], "new text"⟩)]) =
      storeCount [("doc_1_chunk_0", (⟨[1, 2], "old text"⟩ : VecEntry)),
        ("doc_1_chunk_1", ⟨[3, 4], "tail"⟩)] ∧
    (([("doc_1_chunk_0", (⟨[5, 6], "new text"⟩ : VecEntry))].map Prod.fst).Nodup →
      ∀ p ∈ [("doc_1_chunk_0", (⟨[5, 6], "new text"⟩ : VecEntry))],
        storeLookup (insertBatch
          [("doc_1_chunk_0", ⟨[1, 2], "old text"⟩), ("doc_1_chunk_1", ⟨[3, 4], "tail"⟩)]
          [("doc_1_chunk_0", ⟨[5, 6], "new text"⟩)]) p.1 = some p.2) :=
  insertBatch_upsert_existing
    [("doc_1_chunk_0", ⟨[1, 2], "old text"⟩), ("doc_1_chunk_1", ⟨[3, 4], "tail"⟩)]
    [("doc_1_chunk_0", ⟨[5, 6], "new text"⟩)]
    (by intro p hp; simp only [List.mem_singleton] at hp; subst hp; simp [storeKeys])
